import Mathlib

/-!
# A verification model of the Discord task-allocation bot

This file gives a shallow embedding, in Lean, of the round logic of
`task_bot_v2.py` (and, where noted, the older single-winner variant in
`task_bot.py`).  Participants, message ids and timestamps are modelled as
natural numbers; Python dictionaries are modelled as association lists that
preserve insertion order; the outcomes of external calls (Discord API,
Google Sheets) are modelled as explicit boolean oracles, since the code
branches only on whether those calls succeed or raise.

Sends to the announcement and log channels are assumed not to raise: the
code treats them as fire-and-forget, and an exception there would escape to
the outer catch-all handler, a path that is outside every claim below
except where explicitly discussed.
-/

namespace TaskBot

/-! ## ClaimTracker: `reaction_timestamps` and `on_reaction_add`

`reaction_timestamps : Dict[int, Dict[int, datetime]]` maps a message id to
a per-round bucket mapping user id to the first-seen reaction time
(`task_bot_v2.py` line 91).  Buckets and the tracker are modelled as
association lists in insertion order, mirroring Python dict semantics.
-/

/-- A per-round claim bucket: user id paired with first-seen timestamp. -/
abbrev Bucket := List (Nat × Nat)

/-- The whole tracker: message id paired with that round's bucket. -/
abbrev Tracker := List (Nat × Bucket)

/-- Dictionary lookup in a bucket (`reactor.id in self.reaction_timestamps[message.id]`
and the subsequent indexing). -/
def lookupTs : Bucket → Nat → Option Nat
  | [], _ => none
  | (u, t) :: rest, uid => if u = uid then some t else lookupTs rest uid

/-- Dictionary lookup of a round's bucket (`message_id in self.reaction_timestamps`
and the subsequent indexing). -/
def lookupBucket : Tracker → Nat → Option Bucket
  | [], _ => none
  | (m, b) :: rest, mid => if m = mid then some b else lookupBucket rest mid

/-- Dictionary assignment `self.reaction_timestamps[message_id] = b`: overwrite
in place if the key exists, append otherwise (Python dicts keep insertion order). -/
def setBucket : Tracker → Nat → Bucket → Tracker
  | [], mid, b => [(mid, b)]
  | (m, bk) :: rest, mid, b =>
    if m = mid then (mid, b) :: rest else (m, bk) :: setBucket rest mid b

/-- One inbound reaction event, as seen by the `on_reaction_add` listener. -/
structure ReactionEvent where
  messageId : Nat
  userId : Nat
  isBot : Bool
  isCheck : Bool
  time : Nat
  deriving DecidableEq

/-- `on_reaction_add` (`task_bot_v2.py` lines 363-373): ignore bot users and
non-checkmark emojis; create the round bucket if missing; record the
timestamp only if the user has none yet. -/
def on_reaction_add (tr : Tracker) (ev : ReactionEvent) : Tracker :=
  if ev.isBot || !ev.isCheck then tr
  else
    let tr1 := if (lookupBucket tr ev.messageId).isSome then tr
               else setBucket tr ev.messageId []
    let bucket := (lookupBucket tr1 ev.messageId).getD []
    if (lookupTs bucket ev.userId).isSome then tr1
    else setBucket tr1 ev.messageId (bucket ++ [(ev.userId, ev.time)])

/-! ## Winner selection (`task_bot_v2.py` lines 670-686)

Each non-bot reactor is paired with its recorded timestamp, or with
`datetime.now()` at resolution time if none was recorded; the pairs are
sorted by timestamp with Python's stable `list.sort`, modelled by Mathlib's
stable `insertionSort`; the first `tasks_this_round` reactors win.
-/

/-- The timestamp a reactor is sorted by: the recorded one if present,
otherwise the resolution-time clock value (lines 673-680). -/
def claimTs (bucket : Bucket) (now r : Nat) : Nat :=
  (lookupTs bucket r).getD now

/-- The `sorted_reactors` list before sorting: each reactor in enumeration
order, paired with its `claimTs`. -/
def claimPairs (bucket : Bucket) (now : Nat) (reactors : List Nat) : List (Nat × Nat) :=
  reactors.map (fun r => (r, claimTs bucket now r))

/-- The sort key `lambda x: x[1]` of line 683, as a total preorder on pairs. -/
def tsLe (a b : Nat × Nat) : Prop := a.2 ≤ b.2

instance : DecidableRel tsLe := fun a b => inferInstanceAs (Decidable (a.2 ≤ b.2))

instance : IsTotal (Nat × Nat) tsLe := ⟨fun a b => Nat.le_total a.2 b.2⟩

instance : IsTrans (Nat × Nat) tsLe := ⟨fun _ _ _ => Nat.le_trans⟩

/-- `sorted_reactors.sort(key=lambda x: x[1])`: Python's sort is stable, and
`List.insertionSort` with a total preorder is its stable counterpart. -/
def sortClaims (l : List (Nat × Nat)) : List (Nat × Nat) :=
  l.insertionSort tsLe

/-- `winners = [reactor for reactor, _ in sorted_reactors[:tasks_this_round]]`
(line 686), with `tasks_this_round = winners_per_task` = the `wantCount`. -/
def selectWinners (bucket : Bucket) (now : Nat) (reactors : List Nat)
    (wantCount : Nat) : List Nat :=
  ((sortClaims (claimPairs bucket now reactors)).take wantCount).map Prod.fst

/-! ## Single-winner selection of the older `task_bot.py` (lines 648-662)

The v1 loop keeps a running `(winner, earliest_time)` pair.  For each
reactor with a recorded timestamp it updates the pair if the timestamp is
earlier; after each iteration, if no timestamp has been seen yet, the
winner is reset to `reactors[0]`.
-/

/-- One iteration of the v1 scan.  `first` is `reactors[0]`; the state is
`(winner, earliest_time)` with `earliest_time : Option Nat`. -/
def v1Step (bucket : Bucket) (first : Nat) (st : Nat × Option Nat) (r : Nat) :
    Nat × Option Nat :=
  let st1 :=
    match lookupTs bucket r with
    | some ts =>
      match st.2 with
      | none => (r, some ts)
      | some e => if ts < e then (r, some ts) else st
    | none => st
  match st1.2 with
  | none => (first, none)
  | some _ => st1

/-- The v1 winner: `none` when there are no reactors (the `if reactors:`
guard), otherwise the result of the scan started at `(reactors[0], None)`. -/
def findWinnerV1 (bucket : Bucket) : List Nat → Option Nat
  | [] => none
  | r :: rest => some (((r :: rest).foldl (v1Step bucket r) (r, none)).1)

/-! ## LedgerClient: `write_to_sheet` (`task_bot_v2.py` lines 413-446)

The Sheets API is modelled by an oracle telling, per attempt, whether the
open/worksheet calls raise (`openFails`) and whether `update_cell` raises
(`writeFails`); `rowCount` is `len(worksheet.get_all_values())`.
-/

/-- The environment `write_to_sheet` runs against. `configured` is
`self.gc and self.sheet_url`; `urlValid` is whether `extract_sheet_id`
succeeds on the configured URL. -/
structure SheetEnv where
  configured : Bool
  urlValid : Bool
  rowCount : Nat
  openFails : Nat → Bool
  writeFails : Nat → Bool

/-- How a call to `write_to_sheet` ended. -/
inductive WriteResult where
  | notConfigured
  | badUrl
  | rowMissing
  | wrote
  | gaveUp
  deriving DecidableEq

/-- Observable trace of one `write_to_sheet` call: how it ended, how many
loop iterations were entered, the backoff sleeps performed (in seconds, in
order), and how many `update_cell` calls succeeded.  The function always
returns a trace: every exception inside an attempt is caught by the loop,
so `write_to_sheet` never raises. -/
structure WriteTrace where
  result : WriteResult
  started : Nat
  delays : List Nat
  writes : Nat
  deriving DecidableEq

/-- The `for attempt in range(3)` body; `ks` is the list of remaining
attempt indices.  Order inside an attempt mirrors the source: extract the
sheet id (a `None` id returns with no retry), open the sheet (may raise),
check the row exists (missing row returns with no retry), write the cell
(may raise).  A raise logs and, unless this was the last attempt, sleeps
`2 ** attempt` seconds and retries. -/
def sheetLoop (env : SheetEnv) (tn : Nat) : List Nat → WriteTrace
  | [] => ⟨.gaveUp, 0, [], 0⟩
  | k :: ks =>
    if env.urlValid = false then ⟨.badUrl, 1, [], 0⟩
    else if env.openFails k then
      if ks = [] then ⟨.gaveUp, 1, [], 0⟩
      else
        let rest := sheetLoop env tn ks
        ⟨rest.result, rest.started + 1, 2 ^ k :: rest.delays, rest.writes⟩
    else if env.rowCount < tn + 1 then ⟨.rowMissing, 1, [], 0⟩
    else if env.writeFails k then
      if ks = [] then ⟨.gaveUp, 1, [], 0⟩
      else
        let rest := sheetLoop env tn ks
        ⟨rest.result, rest.started + 1, 2 ^ k :: rest.delays, rest.writes⟩
    else ⟨.wrote, 1, [], 1⟩

/-- `write_to_sheet(task_number, winner_name)`: an early return when Sheets
is not configured, otherwise the 3-attempt retry loop. -/
def write_to_sheet (env : SheetEnv) (tn : Nat) : WriteTrace :=
  if env.configured = false then ⟨.notConfigured, 0, [], 0⟩
  else sheetLoop env tn [0, 1, 2]

/-! ## Notification: `dm_winner` (`task_bot_v2.py` lines 448-536) -/

/-- The content common to the DM embed and the fallback channel embed: the
task number and the configured sheet link. -/
structure NoticeContent where
  taskNumber : Nat
  sheetLink : String
  deriving DecidableEq

/-- Observable trace of one `dm_winner` call: the content of the attempted
DM, whether the DM was delivered, the fallback posts made in the
announcement channel (content plus whether they carry the inaccessible-DMs
notice), and the boolean the function returns. -/
structure DmTrace where
  attempted : NoticeContent
  dmDelivered : Bool
  posts : List (NoticeContent × Bool)
  returned : Bool
  deriving DecidableEq

/-- `dm_winner(winner_member, task_number)`: try the DM; on
`Forbidden`/`HTTPException` build the same content into a channel embed
headed "Inaccessible DM's" and post it to the announcement channel if one
is set.  Every failure inside is caught, so the call never raises. -/
def dm_winner (sheetUrl : String) (channelPresent : Bool) (dmOk : Bool)
    (tn : Nat) : DmTrace :=
  let content : NoticeContent := ⟨tn, sheetUrl⟩
  if dmOk then ⟨content, true, [], true⟩
  else ⟨content, false, if channelPresent then [(content, true)] else [], false⟩

/-! ## Per-winner effect pipeline (`task_bot_v2.py` lines 694-767)

For winner `i` the code looks up the member, checks the bot's permissions
and role rank (each failure `continue`s to the next winner), calls
`add_roles` (an exception lands in the `except` handlers and skips the rest
of this winner's steps), then DMs the winner, writes the ledger and appends
to `winners_assigned`.  `dm_winner` and `write_to_sheet` never raise, so a
winner that survives the grant reaches both.
-/

/-- The external outcomes one winner's processing can observe.
`memberFound` covers `get_member_safely` succeeding and the member being in
the guild; `grantOk` is whether `get_or_create_role`/`add_roles` complete
without raising. -/
structure WinnerEnv where
  memberFound : Bool
  manageRoles : Bool
  roleHighEnough : Bool
  grantOk : Bool
  dmOk : Bool
  sheetEnv : SheetEnv

/-- What happened while processing one winner. `assigned` is whether the
winner was appended to `winners_assigned`. -/
structure WinnerResult where
  granted : Bool
  dmTrace : Option DmTrace
  sheetTrace : Option WriteTrace
  assigned : Bool

/-- One iteration of the `for i, winner in enumerate(winners)` loop, for the
winner holding task number `tn`.  The announcement channel is present
whenever the loop runs (checked at the top of the round), so
`channelPresent` is `true` here. -/
def processWinner (sheetUrl : String) (tn : Nat) (env : WinnerEnv) : WinnerResult :=
  if env.memberFound = false then ⟨false, none, none, false⟩
  else if env.manageRoles = false then ⟨false, none, none, false⟩
  else if env.roleHighEnough = false then ⟨false, none, none, false⟩
  else if env.grantOk = false then ⟨false, none, none, false⟩
  else
    ⟨true, some (dm_winner sheetUrl true env.dmOk tn),
      some (write_to_sheet env.sheetEnv tn), true⟩

/-- All the boolean preconditions for a winner to be processed to
completion, as one flag. -/
def envOk (e : WinnerEnv) : Bool :=
  e.memberFound && e.manageRoles && e.roleHighEnough && e.grantOk

/-- The `winners_assigned` list built by the loop: the winner at index `i`
(holding task number `starting_task_num + i`) is appended exactly when its
processing reaches the end of the success path; the index advances for
failed winners too.  The first argument of each pair is the winner id, the
second its task number. -/
def winnersAssigned (sheetUrl : String) (envOf : Nat → WinnerEnv) :
    Nat → List Nat → List (Nat × Nat)
  | _, [] => []
  | tn, r :: rest =>
    if (processWinner sheetUrl tn (envOf r)).assigned then
      (r, tn) :: winnersAssigned sheetUrl envOf (tn + 1) rest
    else winnersAssigned sheetUrl envOf (tn + 1) rest

/-! ## One round (`task_allocation_loop_impl`, lines 565-831) -/

/-- How a round can end once the announcement has been posted and the
window slept out. -/
inductive RoundExit where
  | fetchFailed
  | noCheckmark
  | noClaims
  | assignFailed
  | dispatched
  deriving DecidableEq

/-- External observations of one round past the window: whether the
re-fetch of the announcement message succeeds, whether a ✅ reaction is
found on the re-fetched message, the non-bot reactors in enumeration
order, the round's recorded claim bucket, the resolution-time clock, and
each reactor's effect-pipeline environment. -/
structure RoundEnv where
  fetchOk : Bool
  checkmark : Bool
  reactors : List Nat
  bucket : Bucket
  now : Nat
  envOf : Nat → WinnerEnv

/-- The round's observable result: the exit taken, the task cursor after
the round, whether the round's `reaction_timestamps` bucket was deleted by
the end of the round, and the `winners_assigned` list. -/
structure RoundResult where
  exit : RoundExit
  cursorAfter : Nat
  bucketDiscarded : Bool
  assigns : List (Nat × Nat)

/-- The resolution half of `task_allocation_loop_impl`, from the re-fetch
(line 638) to the cleanup (line 825), for a round whose announcement was
posted with the cursor at `cursor`.  The exit paths:
* re-fetch raises (`NotFound`/`HTTPException`): the bucket is deleted in
  the handler and the method returns (lines 639-648);
* no ✅ reaction on the re-fetched message: the method returns at line 658
  with no cleanup, so the bucket stays in the tracker;
* no non-bot reactors: announce "No Claims", cursor untouched, cleanup;
* reactors present: select winners, run the pipeline per winner, increment
  the cursor by exactly 1 if and only if `winners_assigned` is non-empty
  (lines 771-772), announce, cleanup. -/
def runRound (sheetUrl : String) (wantCount : Nat) (cursor : Nat)
    (env : RoundEnv) : RoundResult :=
  if env.fetchOk = false then ⟨.fetchFailed, cursor, true, []⟩
  else if env.checkmark = false then ⟨.noCheckmark, cursor, false, []⟩
  else if env.reactors = [] then ⟨.noClaims, cursor, true, []⟩
  else
    let winners := selectWinners env.bucket env.now env.reactors wantCount
    let assigns := winnersAssigned sheetUrl env.envOf cursor winners
    if assigns = [] then ⟨.assignFailed, cursor, true, assigns⟩
    else ⟨.dispatched, cursor + 1, true, assigns⟩

/-! ## Helper lemmas -/

/-- A winner's processing reaches the end of the success path exactly when
its member lookup, both permission checks and the grant all succeed. -/
theorem processWinner_assigned (url : String) (tn : Nat) (env : WinnerEnv) :
    (processWinner url tn env).assigned = envOk env := by
  obtain ⟨mf, mr, rh, go, dm, se⟩ := env
  cases mf <;> cases mr <;> cases rh <;> cases go <;> simp [processWinner, envOk]

/-- The retry loop enters at most as many iterations as it has attempt
indices left. -/
theorem sheetLoop_started_le (env : SheetEnv) (tn : Nat) :
    ∀ ks : List Nat, (sheetLoop env tn ks).started ≤ ks.length := by
  intro ks
  induction ks with
  | nil => simp [sheetLoop]
  | cons k ks ih =>
    simp only [sheetLoop]
    split
    · simp
    · split
      · split
        · simp
        · simpa using Nat.succ_le_succ ih
      · split
        · simp
        · split
          · split
            · simp
            · simpa using Nat.succ_le_succ ih
          · simp

/-- When every winner in the list survives its pipeline, the assigned task
numbers are exactly the consecutive block starting at the round's starting
task number. -/
theorem winnersAssigned_all_ok (url : String) (envOf : Nat → WinnerEnv) :
    ∀ (l : List Nat) (tn : Nat), (∀ r ∈ l, envOk (envOf r) = true) →
      (winnersAssigned url envOf tn l).map Prod.snd = List.range' tn l.length := by
  intro l
  induction l with
  | nil => intro tn _; simp [winnersAssigned]
  | cons r rest ih =>
    intro tn h
    have hr : (processWinner url tn (envOf r)).assigned = true := by
      rw [processWinner_assigned]; exact h r (List.mem_cons_self r rest)
    simp only [winnersAssigned, hr, if_pos]
    have := ih (tn + 1) (fun x hx => h x (List.mem_cons_of_mem r hx))
    simp [this, List.range'_succ]

/-- Every assigned pair's task number lies in the round's task-number
window `[tn, tn + length)`. -/
theorem winnersAssigned_snd_bounds (url : String) (envOf : Nat → WinnerEnv) :
    ∀ (l : List Nat) (tn : Nat) (p : Nat × Nat),
      p ∈ winnersAssigned url envOf tn l → tn ≤ p.2 ∧ p.2 < tn + l.length := by
  intro l
  induction l with
  | nil => intro tn p hp; simp [winnersAssigned] at hp
  | cons r rest ih =>
    intro tn p hp
    simp only [winnersAssigned] at hp
    rw [List.length_cons]
    split at hp
    · rcases List.mem_cons.mp hp with h | h
      · subst h; simp
      · have := ih (tn + 1) p h
        omega
    · have := ih (tn + 1) p hp
      omega

/-- Assigned task numbers are strictly increasing along the winner list. -/
theorem winnersAssigned_snd_pairwise (url : String) (envOf : Nat → WinnerEnv) :
    ∀ (l : List Nat) (tn : Nat),
      ((winnersAssigned url envOf tn l).map Prod.snd).Pairwise (· < ·) := by
  intro l
  induction l with
  | nil => intro tn; simp [winnersAssigned]
  | cons r rest ih =>
    intro tn
    simp only [winnersAssigned]
    split
    · rw [List.map_cons]
      refine List.Pairwise.cons ?_ (ih (tn + 1))
      intro b hb
      rcases List.mem_map.mp hb with ⟨p, hp, rfl⟩
      have := winnersAssigned_snd_bounds url envOf rest (tn + 1) p hp
      omega
    · exact ih (tn + 1)

/-- The number of selected winners is the smaller of the requested count
and the reactor count. -/
theorem length_selectWinners (bucket : Bucket) (now : Nat)
    (reactors : List Nat) (w : Nat) :
    (selectWinners bucket now reactors w).length = min w reactors.length := by
  simp [selectWinners, sortClaims, claimPairs, List.length_take]

/-! ## C3: is the ledger write independent of the grant and notify steps? -/

/-- C3 counterexample: a winner whose member lookup, permission checks and
DM would all succeed, but whose `add_roles` call raises, never reaches
`write_to_sheet` — the ledger write is skipped, refuting the claim that it
runs regardless of the grant outcome. -/
theorem grant_failure_skips_ledger_write :
    (processWinner "sheet" 1
      ⟨true, true, true, false, true,
        ⟨true, true, 9, fun _ => false, fun _ => false⟩⟩).sheetTrace = none := rfl

/-- C3 amended: the ledger write for a winner is executed exactly when the
member lookup, both permission checks and the grant succeed; the outcome of
the notification step never affects it (`dm_winner` catches all its own
failures and `write_to_sheet` runs either way). -/
theorem ledger_write_iff_grant_path (url : String) (tn : Nat) (env : WinnerEnv) :
    (processWinner url tn env).sheetTrace.isSome = envOk env ∧
    ∀ b, (processWinner url tn { env with dmOk := b }).sheetTrace =
      (processWinner url tn env).sheetTrace := by
  obtain ⟨mf, mr, rh, go, dm, se⟩ := env
  constructor
  · cases mf <;> cases mr <;> cases rh <;> cases go <;> simp [processWinner, envOk]
  · intro b
    cases mf <;> cases mr <;> cases rh <;> cases go <;> simp [processWinner]

/-! ## C5: is the claim bucket discarded on every exit path? -/

/-- C5: when the re-fetched announcement message carries no ✅ reaction,
`task_allocation_loop_impl` returns at line 658 without deleting the
round's `reaction_timestamps` entry — the bucket survives the round,
contradicting the discard-exactly-once contract that every other exit path
honours. -/
theorem missing_checkmark_retains_bucket :
    (runRound "url" 1 1
      ⟨true, false, [], [(3, 0)], 9,
        fun _ => ⟨true, true, true, true, true,
          ⟨true, true, 9, fun _ => false, fun _ => false⟩⟩⟩).bucketDiscarded
      = false := rfl

/-! ## C7: ledger retry policy -/

/-- C7: a transiently failing ledger write is attempted exactly 3 times
with doubling backoff (1s after the first failure, 2s after the second,
none after the third), then `write_to_sheet` returns without raising; no
call ever enters more than 3 attempts; and a winner's `winners_assigned`
membership — hence the cursor advance — does not depend on the sheet
outcome. -/
theorem ledger_retry_policy (env : SheetEnv) (tn : Nat)
    (hconf : env.configured = true) (hurl : env.urlValid = true)
    (hfail : ∀ k, env.openFails k = true) :
    write_to_sheet env tn = ⟨.gaveUp, 3, [1, 2], 0⟩ ∧
    (∀ (e : SheetEnv) (n : Nat), (write_to_sheet e n).started ≤ 3) ∧
    ∀ (url : String) (m : Nat) (wv : WinnerEnv) (s : SheetEnv),
      (processWinner url m { wv with sheetEnv := s }).assigned =
        (processWinner url m wv).assigned := by
  refine ⟨?_, ?_, ?_⟩
  · simp [write_to_sheet, sheetLoop, hconf, hurl, hfail]
  · intro e n
    by_cases h : e.configured = false
    · simp [write_to_sheet, h]
    · simp only [write_to_sheet, h, if_neg, Bool.not_eq_false]
      simpa using sheetLoop_started_le e n [0, 1, 2]
  · intro url m wv s
    obtain ⟨mf, mr, rh, go, dm, se⟩ := wv
    cases mf <;> cases mr <;> cases rh <;> cases go <;> simp [processWinner]

/-- C7 witness: the retry policy evaluated on a concrete always-failing
sheet environment. -/
theorem ledger_retry_policy_w :
    write_to_sheet ⟨true, true, 9, fun _ => true, fun _ => false⟩ 5 =
      ⟨.gaveUp, 3, [1, 2], 0⟩ :=
  (ledger_retry_policy ⟨true, true, 9, fun _ => true, fun _ => false⟩ 5
    rfl rfl (fun _ => rfl)).1

/-! ## C8: missing ledger row -/

/-- C8: when the target row does not exist (`taskNumber + 1` exceeds the
row count) and the sheet opens normally, `write_to_sheet` logs and returns
during its first attempt: one iteration, no backoff sleeps, no cell
write. -/
theorem ledger_missing_row_no_retry (env : SheetEnv) (tn : Nat)
    (hconf : env.configured = true) (hurl : env.urlValid = true)
    (hopen : env.openFails 0 = false) (hrow : env.rowCount < tn + 1) :
    write_to_sheet env tn = ⟨.rowMissing, 1, [], 0⟩ := by
  simp [write_to_sheet, sheetLoop, hconf, hurl, hopen, hrow]

/-- C8 witness: a concrete 3-row sheet asked to record task 5. -/
theorem ledger_missing_row_no_retry_w :
    write_to_sheet ⟨true, true, 3, fun _ => false, fun _ => false⟩ 5 =
      ⟨.rowMissing, 1, [], 0⟩ :=
  ledger_missing_row_no_retry ⟨true, true, 3, fun _ => false, fun _ => false⟩ 5
    rfl rfl rfl (by decide)

/-! ## C9: DM fallback -/

/-- C9: if the DM fails, exactly one fallback post is made in the
announcement channel, carrying the very content of the failed DM (same
task number, same sheet link) plus the inaccessible-DMs notice; if the DM
succeeds, no fallback post is made. -/
theorem dm_fallback_exactly_once (url : String) (tn : Nat) (dmOk : Bool) :
    (dmOk = false →
      (dm_winner url true dmOk tn).posts =
        [((dm_winner url true dmOk tn).attempted, true)] ∧
      (dm_winner url true dmOk tn).attempted = ⟨tn, url⟩) ∧
    (dmOk = true → (dm_winner url true dmOk tn).posts = []) := by
  cases dmOk <;> simp [dm_winner]

/-- C9 witness: a failed DM about task 7 produces exactly the one fallback
post with the same content and the notice flag set. -/
theorem dm_fallback_exactly_once_w :
    (dm_winner "link" true false 7).posts =
      [((dm_winner "link" true false 7).attempted, true)] :=
  ((dm_fallback_exactly_once "link" 7 false).1 rfl).1

/-! ## C2: cursor advance -/

/-- C2 counterexample: a round observing exactly one claim (reactor 7)
whose winner's member lookup fails. `winners_assigned` stays empty, so the
`if winners_assigned:` guard at line 771 skips the increment and the cursor
stays at 4, although a claim was observed. -/
theorem claim_without_cursor_advance_cex :
    (([7] : List Nat) ≠ []) ∧
    (runRound "u" 1 4
      ⟨true, true, [7], [(7, 0)], 5,
        fun _ => ⟨false, true, true, true, true,
          ⟨true, true, 9, fun _ => false, fun _ => false⟩⟩⟩).cursorAfter = 4 :=
  ⟨by decide, rfl⟩

/-- C2 amended: in a round that reaches resolution, the cursor advances by
exactly 1 when `winners_assigned` is non-empty and is otherwise unchanged;
a round with zero claims never assigns and leaves the cursor unchanged;
and a round with at least one claim in which every selected winner's
pipeline succeeds advances the cursor by exactly 1 regardless of the
configured winner count. -/
theorem cursor_advance_rule (url : String) (w cursor : Nat) (env : RoundEnv)
    (hf : env.fetchOk = true) (hc : env.checkmark = true) :
    ((runRound url w cursor env).cursorAfter =
      if (runRound url w cursor env).assigns = [] then cursor else cursor + 1) ∧
    (env.reactors = [] →
      (runRound url w cursor env).assigns = [] ∧
      (runRound url w cursor env).cursorAfter = cursor) ∧
    (env.reactors ≠ [] → 1 ≤ w → (∀ r, envOk (env.envOf r) = true) →
      (runRound url w cursor env).cursorAfter = cursor + 1) := by
  by_cases hr : env.reactors = []
  · refine ⟨?_, fun _ => ⟨?_, ?_⟩, fun hne _ _ => absurd hr hne⟩ <;>
      simp [runRound, hf, hc, hr]
  · have hrun : runRound url w cursor env =
        if winnersAssigned url env.envOf cursor
            (selectWinners env.bucket env.now env.reactors w) = [] then
          ⟨.assignFailed, cursor, true,
            winnersAssigned url env.envOf cursor
              (selectWinners env.bucket env.now env.reactors w)⟩
        else
          ⟨.dispatched, cursor + 1, true,
            winnersAssigned url env.envOf cursor
              (selectWinners env.bucket env.now env.reactors w)⟩ := by
      simp [runRound, hf, hc, hr]
    refine ⟨?_, fun h => absurd h hr, fun _ hw hok => ?_⟩
    · rw [hrun]
      by_cases hA0 : winnersAssigned url env.envOf cursor
          (selectWinners env.bucket env.now env.reactors w) = [] <;>
        simp [hA0]
    · have hmap := winnersAssigned_all_ok url env.envOf
        (selectWinners env.bucket env.now env.reactors w) cursor
        (fun r _ => hok r)
      have hlenA : (winnersAssigned url env.envOf cursor
          (selectWinners env.bucket env.now env.reactors w)).length =
          min w env.reactors.length := by
        have h1 := congrArg List.length hmap
        simpa [List.length_range', length_selectWinners] using h1
      have hAne : winnersAssigned url env.envOf cursor
          (selectWinners env.bucket env.now env.reactors w) ≠ [] := by
        rw [← List.length_pos]
        rw [hlenA]
        have hn : 0 < env.reactors.length := List.length_pos.mpr hr
        omega
      rw [hrun, if_neg hAne]

/-- C2 witness: two claims, both pipelines succeed, five winner slots
requested: the cursor moves 3 → 4, by exactly one. -/
theorem cursor_advance_rule_w :
    (runRound "u" 5 3
      ⟨true, true, [1, 2], [(1, 4), (2, 2)], 9,
        fun _ => ⟨true, true, true, true, true,
          ⟨true, true, 9, fun _ => false, fun _ => false⟩⟩⟩).cursorAfter = 4 :=
  (cursor_advance_rule "u" 5 3 _ rfl rfl).2.2 (by decide) (by decide)
    (fun _ => rfl)

/-! ## C4: task numbers within one round -/

/-- C4 counterexample: winners `[1, 2]` starting at task 10, where winner 1
(index 0) fails its member lookup and winner 2 (index 1) succeeds.  The
round resolves exactly one winner, but that winner holds task number 11 =
`starting_task + 1`, not the contiguous range `[10]` of length 1 starting
at `starting_task` — the failed winner's index is still consumed, leaving
a gap. -/
theorem task_numbers_gap_cex :
    (runRound "u" 2 10
      ⟨true, true, [1, 2], [(1, 0), (2, 1)], 5,
        fun r => if r = 1 then
            ⟨false, true, true, true, true,
              ⟨true, true, 99, fun _ => false, fun _ => false⟩⟩
          else
            ⟨true, true, true, true, true,
              ⟨true, true, 99, fun _ => false, fun _ => false⟩⟩⟩).assigns
      = [(2, 11)] ∧
    List.range' 10 1 = [10] := ⟨rfl, rfl⟩

/-- C4 amended: the winner at index `i` of the selected list receives task
number `starting_task + i`, so the task numbers actually assigned are
strictly increasing in claim order with no repeats and all lie in
`[starting_task, starting_task + selectedCount)`; they form exactly the
contiguous range `starting_task .. starting_task + selectedCount - 1` when
every selected winner's pipeline succeeds (failed winners leave gaps). -/
theorem task_numbers_in_round (url : String) (envOf : Nat → WinnerEnv)
    (start : Nat) (winners : List Nat) :
    ((winnersAssigned url envOf start winners).map Prod.snd).Pairwise (· < ·) ∧
    (∀ p ∈ winnersAssigned url envOf start winners,
      start ≤ p.2 ∧ p.2 < start + winners.length) ∧
    ((∀ r ∈ winners, envOk (envOf r) = true) →
      (winnersAssigned url envOf start winners).map Prod.snd =
        List.range' start winners.length) :=
  ⟨winnersAssigned_snd_pairwise url envOf winners start,
    fun p hp => winnersAssigned_snd_bounds url envOf winners start p hp,
    fun h => winnersAssigned_all_ok url envOf winners start h⟩

/-- C4 witness: three winners, all pipelines succeed, starting at task 4:
the assigned task numbers are exactly `[4, 5, 6]`. -/
theorem task_numbers_in_round_w :
    (winnersAssigned "u"
      (fun _ => ⟨true, true, true, true, true,
        ⟨true, true, 9, fun _ => false, fun _ => false⟩⟩) 4 [1, 2, 3]).map
        Prod.snd = List.range' 4 3 :=
  (task_numbers_in_round "u"
    (fun _ => ⟨true, true, true, true, true,
      ⟨true, true, 9, fun _ => false, fun _ => false⟩⟩) 4 [1, 2, 3]).2.2
    (fun _ _ => rfl)

/-! ## C6: idempotent claim registration -/

/-- Writing a bucket makes it the one found for that message id. -/
theorem lookupBucket_setBucket_self (tr : Tracker) (m : Nat) (b : Bucket) :
    lookupBucket (setBucket tr m b) m = some b := by
  induction tr with
  | nil => simp [setBucket, lookupBucket]
  | cons hd tl ih =>
    obtain ⟨m', b'⟩ := hd
    by_cases h : m' = m <;> simp [setBucket, lookupBucket, h, ih]

/-- Two writes to the same message id collapse to the second. -/
theorem setBucket_setBucket (tr : Tracker) (m : Nat) (b b' : Bucket) :
    setBucket (setBucket tr m b) m b' = setBucket tr m b' := by
  induction tr with
  | nil => simp [setBucket]
  | cons hd tl ih =>
    obtain ⟨m', bk⟩ := hd
    by_cases h : m' = m <;> simp [setBucket, h, ih]

/-- Looking up a user just appended to a bucket it was absent from. -/
theorem lookupTs_append_self (b : Bucket) (u t : Nat)
    (h : lookupTs b u = none) : lookupTs (b ++ [(u, t)]) u = some t := by
  induction b with
  | nil => simp [lookupTs]
  | cons hd tl ih =>
    obtain ⟨u', t'⟩ := hd
    by_cases hu : u' = u
    · simp [lookupTs, hu] at h
    · simp only [lookupTs, hu, if_false, List.cons_append] at h ⊢
      exact ih h

/-- A user with no recorded timestamp does not occur among the bucket's
keys. -/
theorem not_mem_keys_of_lookupTs_none (b : Bucket) (u : Nat)
    (h : lookupTs b u = none) : u ∉ b.map Prod.fst := by
  induction b with
  | nil => simp
  | cons hd tl ih =>
    obtain ⟨u', t'⟩ := hd
    by_cases hu : u' = u
    · simp [lookupTs, hu] at h
    · simp only [lookupTs, hu, if_false] at h
      simp [Ne.symm hu, ih h]

/-- Registering a fresh claim rewrites the round bucket to the old bucket
with the new entry appended. -/
theorem on_reaction_add_fresh (tr : Tracker) (m u t : Nat)
    (hfresh : lookupTs ((lookupBucket tr m).getD []) u = none) :
    on_reaction_add tr ⟨m, u, false, true, t⟩ =
      setBucket tr m (((lookupBucket tr m).getD []) ++ [(u, t)]) := by
  simp only [on_reaction_add, Bool.false_or, Bool.not_true, Bool.false_eq_true,
    if_false]
  cases hb : lookupBucket tr m with
  | some b =>
    simp only [hb, Option.isSome_some, if_pos, Option.getD_some]
    rw [hb, Option.getD_some] at hfresh
    simp [hfresh]
  | none =>
    simp only [hb, Option.isSome_none, Bool.false_eq_true, if_false,
      lookupBucket_setBucket_self, Option.getD_some]
    rw [hb] at hfresh
    simp only [Option.getD_none] at hfresh ⊢
    simp [lookupTs, setBucket_setBucket]

/-- C6: registering a participant `u` with no recorded claim for round `m`
stores the timestamp of that first registration; afterwards the bucket
holds exactly one entry for `u`; and a second registration of `u` for the
same round — at any later time — returns the tracker unchanged. -/
theorem claim_registration_idempotent (tr : Tracker) (m u t1 t2 : Nat)
    (hfresh : lookupTs ((lookupBucket tr m).getD []) u = none) :
    lookupTs ((lookupBucket (on_reaction_add tr ⟨m, u, false, true, t1⟩)
      m).getD []) u = some t1 ∧
    (((lookupBucket (on_reaction_add tr ⟨m, u, false, true, t1⟩)
      m).getD []).map Prod.fst).count u = 1 ∧
    on_reaction_add (on_reaction_add tr ⟨m, u, false, true, t1⟩)
      ⟨m, u, false, true, t2⟩ =
      on_reaction_add tr ⟨m, u, false, true, t1⟩ := by
  rw [on_reaction_add_fresh tr m u t1 hfresh]
  have hb1 : lookupBucket
      (setBucket tr m (((lookupBucket tr m).getD []) ++ [(u, t1)])) m =
      some (((lookupBucket tr m).getD []) ++ [(u, t1)]) :=
    lookupBucket_setBucket_self tr m _
  have hts : lookupTs (((lookupBucket tr m).getD []) ++ [(u, t1)]) u =
      some t1 := lookupTs_append_self _ u t1 hfresh
  refine ⟨?_, ?_, ?_⟩
  · rw [hb1, Option.getD_some]
    exact hts
  · rw [hb1, Option.getD_some, List.map_append, List.count_append]
    have h0 : (((lookupBucket tr m).getD []).map Prod.fst).count u = 0 :=
      List.count_eq_zero.mpr (not_mem_keys_of_lookupTs_none _ u hfresh)
    simp [h0, List.count_cons]
  · simp only [on_reaction_add, Bool.false_or, Bool.not_true,
      Bool.false_eq_true, if_false, hb1, Option.isSome_some, if_pos,
      Option.getD_some, hts]

/-- C6 witness: register participant 3 for round 9 at time 5, then again at
time 8: the tracker keeps the single entry with timestamp 5 and the second
call is a no-op. -/
theorem claim_registration_idempotent_w :
    on_reaction_add (on_reaction_add [(9, [(4, 2)])] ⟨9, 3, false, true, 5⟩)
      ⟨9, 3, false, true, 8⟩ =
      on_reaction_add [(9, [(4, 2)])] ⟨9, 3, false, true, 5⟩ :=
  (claim_registration_idempotent [(9, [(4, 2)])] 9 3 5 8 (by decide)).2.2

/-! ## C1 and C10: the selection order -/

/-- Every pair in the sorted claim list is a reactor paired with its
`claimTs`. -/
theorem mem_sortClaims_claimPairs (bucket : Bucket) (now : Nat)
    (reactors : List Nat) (p : Nat × Nat)
    (hp : p ∈ sortClaims (claimPairs bucket now reactors)) :
    p.2 = claimTs bucket now p.1 ∧ p.1 ∈ reactors := by
  have hperm := List.perm_insertionSort tsLe (claimPairs bucket now reactors)
  have hp' : p ∈ claimPairs bucket now reactors := hperm.subset hp
  simp only [claimPairs, List.mem_map] at hp'
  rcases hp' with ⟨r, hr, rfl⟩
  exact ⟨rfl, hr⟩

/-- With pairwise-distinct timestamps the sorted claim list is strictly
increasing in its timestamp component. -/
theorem sortClaims_pairwise_lt (bucket : Bucket) (now : Nat)
    (reactors : List Nat)
    (hdist : (reactors.map (claimTs bucket now)).Nodup) :
    (sortClaims (claimPairs bucket now reactors)).Pairwise
      (fun p q => p.2 < q.2) := by
  have hsorted : (sortClaims (claimPairs bucket now reactors)).Sorted tsLe :=
    List.sorted_insertionSort tsLe _
  have hperm := List.perm_insertionSort tsLe (claimPairs bucket now reactors)
  have hsndeq : (claimPairs bucket now reactors).map Prod.snd =
      reactors.map (claimTs bucket now) := by
    simp [claimPairs, List.map_map, Function.comp]
  have hsnd : List.Perm
      ((sortClaims (claimPairs bucket now reactors)).map Prod.snd)
      (reactors.map (claimTs bucket now)) := by
    rw [← hsndeq]
    exact hperm.map Prod.snd
  have hnodup : ((sortClaims (claimPairs bucket now reactors)).map
      Prod.snd).Nodup := hsnd.nodup_iff.mpr hdist
  have hne : (sortClaims (claimPairs bucket now reactors)).Pairwise
      (fun p q => p.2 ≠ q.2) := List.pairwise_map.mp hnodup
  exact (List.Pairwise.and hsorted hne).imp
    (fun h => lt_of_le_of_ne h.1 h.2)

/-- C1: for a round whose reactors all have recorded, pairwise-distinct
timestamps, the selected winners are exactly the earliest
`min(wantCount, reactor count)` reactors: the winner list has that length,
consists of reactors, is strictly increasing in recorded timestamp, and
every selected winner's timestamp is strictly below every unselected
reactor's; an empty reactor list selects no winners and ends the round in
the normal `noClaims` state, not an error. -/
theorem select_earliest_winners (bucket : Bucket) (now : Nat)
    (reactors : List Nat) (w : Nat)
    (hrec : ∀ r ∈ reactors, (lookupTs bucket r).isSome = true)
    (hdist : (reactors.map (claimTs bucket now)).Nodup) :
    (selectWinners bucket now reactors w).length = min w reactors.length ∧
    (∀ r ∈ reactors, lookupTs bucket r = some (claimTs bucket now r)) ∧
    (∀ x ∈ selectWinners bucket now reactors w, x ∈ reactors) ∧
    (selectWinners bucket now reactors w).Pairwise
      (fun a b => claimTs bucket now a < claimTs bucket now b) ∧
    (∀ x ∈ selectWinners bucket now reactors w, ∀ r ∈ reactors,
      r ∉ selectWinners bucket now reactors w →
      claimTs bucket now x < claimTs bucket now r) ∧
    selectWinners bucket now [] w = [] ∧
    (∀ (url : String) (cursor : Nat) (env : RoundEnv),
      env.fetchOk = true → env.checkmark = true → env.reactors = [] →
      (runRound url w cursor env).exit = RoundExit.noClaims) := by
  have hlt := sortClaims_pairwise_lt bucket now reactors hdist
  refine ⟨length_selectWinners bucket now reactors w, ?_, ?_, ?_, ?_,
    by simp [selectWinners, sortClaims, claimPairs], ?_⟩
  · intro r hr
    cases hl : lookupTs bucket r with
    | none =>
      have := hrec r hr
      rw [hl] at this
      simp at this
    | some t => simp [claimTs, hl]
  · intro x hx
    rcases List.mem_map.mp hx with ⟨p, hp, rfl⟩
    exact (mem_sortClaims_claimPairs bucket now reactors p
      (List.take_subset w _ hp)).2
  · unfold selectWinners
    rw [List.pairwise_map]
    have htk : (List.take w (sortClaims
        (claimPairs bucket now reactors))).Pairwise
        (fun p q => p.2 < q.2) := hlt.sublist (List.take_sublist w _)
    refine htk.imp_of_mem ?_
    intro p q hp hq hpq
    have hp' := mem_sortClaims_claimPairs bucket now reactors p
      (List.take_subset w _ hp)
    have hq' := mem_sortClaims_claimPairs bucket now reactors q
      (List.take_subset w _ hq)
    rw [← hp'.1, ← hq'.1]
    exact hpq
  · intro x hx r hr hnr
    rcases List.mem_map.mp hx with ⟨p, hp, rfl⟩
    have hpair : (r, claimTs bucket now r) ∈ claimPairs bucket now reactors := by
      simp only [claimPairs, List.mem_map]
      exact ⟨r, hr, rfl⟩
    have hsortmem : (r, claimTs bucket now r) ∈
        sortClaims (claimPairs bucket now reactors) :=
      ((List.perm_insertionSort tsLe _).mem_iff).mpr hpair
    have hsplit := List.take_append_drop w
      (sortClaims (claimPairs bucket now reactors))
    have hdropmem : (r, claimTs bucket now r) ∈
        List.drop w (sortClaims (claimPairs bucket now reactors)) := by
      rcases List.mem_append.mp (by rw [hsplit]; exact hsortmem) with h | h
      · exact absurd (List.mem_map_of_mem Prod.fst h) hnr
      · exact h
    have hpw := (List.pairwise_append.mp (by rw [hsplit]; exact hlt)).2.2
    have hlt' := hpw p hp (r, claimTs bucket now r) hdropmem
    have hp' := mem_sortClaims_claimPairs bucket now reactors p
      (List.take_subset w _ hp)
    rw [← hp'.1]
    exact hlt'
  · intro url cursor env hf hc hre
    simp [runRound, hf, hc, hre]

/-- C1 witness: reactors 1, 2, 3 recorded at distinct times 10, 5, 7, two
slots requested: the theorem applies and the selection has length
`min 2 3`. -/
theorem select_earliest_winners_w :
    (selectWinners [(1, 10), (2, 5), (3, 7)] 100 [1, 2, 3] 2).length =
      min 2 3 :=
  (select_earliest_winners [(1, 10), (2, 5), (3, 7)] 100 [1, 2, 3] 2
    (by decide) (by decide)).1

/-- A successful lookup exhibits an entry of the bucket. -/
theorem mem_of_lookupTs_some (b : Bucket) (u t : Nat)
    (h : lookupTs b u = some t) : (u, t) ∈ b := by
  induction b with
  | nil => simp [lookupTs] at h
  | cons hd tl ih =>
    obtain ⟨u', t'⟩ := hd
    by_cases hu : u' = u
    · subst hu
      simp only [lookupTs, if_pos, Option.some.injEq] at h
      subst h
      exact List.mem_cons_self _ _
    · simp only [lookupTs, hu, if_false] at h
      exact List.mem_cons_of_mem _ (ih h)

/-- C10: at resolution, a reactor with no recorded timestamp is paired
with the resolution-time clock value; since every recorded timestamp
predates resolution, no unrecorded reactor ever precedes a recorded one in
the sorted order; and in the single-winner version, when no reactor has a
recorded timestamp the winner is the first reactor in enumeration
order. -/
theorem unrecorded_sort_after_recorded (bucket : Bucket) (now : Nat)
    (reactors : List Nat) (hwin : ∀ p ∈ bucket, p.2 < now) :
    (∀ r, lookupTs bucket r = none → claimTs bucket now r = now) ∧
    (sortClaims (claimPairs bucket now reactors)).Pairwise
      (fun p q => (lookupTs bucket q.1).isSome = true →
        (lookupTs bucket p.1).isSome = true) ∧
    (∀ l : List Nat, l ≠ [] → (∀ r ∈ l, lookupTs bucket r = none) →
      findWinnerV1 bucket l = l.head?) := by
  refine ⟨fun r hr => by simp [claimTs, hr], ?_, ?_⟩
  · have hsorted : (sortClaims (claimPairs bucket now reactors)).Sorted tsLe :=
      List.sorted_insertionSort tsLe _
    refine hsorted.imp_of_mem ?_
    intro p q hp hq hle hqrec
    by_contra hnot
    have hpnone : lookupTs bucket p.1 = none := by
      cases hl : lookupTs bucket p.1 with
      | none => rfl
      | some t => rw [hl] at hnot; simp at hnot
    have hp' := mem_sortClaims_claimPairs bucket now reactors p hp
    have hq' := mem_sortClaims_claimPairs bucket now reactors q hq
    cases hql : lookupTs bucket q.1 with
    | none => rw [hql] at hqrec; simp at hqrec
    | some t =>
      have htlt : t < now := hwin _ (mem_of_lookupTs_some _ _ _ hql)
      have hq2 : q.2 = t := by rw [hq'.1]; simp [claimTs, hql]
      have hp2 : p.2 = now := by rw [hp'.1]; simp [claimTs, hpnone]
      have hle' : p.2 ≤ q.2 := hle
      omega
  · have hfold : ∀ (f : Nat) (l' : List Nat),
        (∀ x ∈ l', lookupTs bucket x = none) →
        l'.foldl (v1Step bucket f) (f, none) = (f, none) := by
      intro f l'
      induction l' with
      | nil => intro _; rfl
      | cons x xs ih =>
        intro h
        have hx : lookupTs bucket x = none := h x (List.mem_cons_self x xs)
        have hstep : v1Step bucket f (f, none) x = (f, none) := by
          simp [v1Step, hx]
        rw [List.foldl_cons, hstep]
        exact ih (fun y hy => h y (List.mem_cons_of_mem x hy))
    intro l hne hnone
    cases l with
    | nil => exact absurd rfl hne
    | cons r rest =>
      simp only [findWinnerV1, List.head?]
      rw [hfold r (r :: rest) hnone]

/-- C10 witness: a bucket recording only user 1 at time 3, resolution at
time 10, and reactors 5, 6 with no recorded timestamps: the v1 scan picks
the first reactor in enumeration order. -/
theorem unrecorded_sort_after_recorded_w :
    findWinnerV1 [(1, 3)] [5, 6] = ([5, 6] : List Nat).head? :=
  (unrecorded_sort_after_recorded [(1, 3)] 10 [] (by decide)).2.2 [5, 6]
    (by decide) (by decide)

end TaskBot
